import Mathlib

set_option maxRecDepth 40000

/-!
Verification of the mariastudio booking backend.

The development embeds the JavaScript source shallowly:
JS strings become `List Char`, JS objects holding a form submission become
association lists `List (List Char × JsVal)` in property order, and the
request handlers become pure functions over an explicit store state, with
the outcomes of the external collaborators (MongoDB insert/find, the file
system, the SMTP transport) passed in as parameters.
-/

namespace MariaStudio

/-- Chars of a string literal (JS strings are modelled as `List Char`). -/
def cs (s : String) : List Char := s.data

/-- JS values occurring in a submission object: `null`, a string, an array of
strings (multi-select form fields), or the file-metadata object stored under
the `file` / `uploaded_file` key. -/
inductive JsVal where
  | vnull
  | vstr (s : List Char)
  | varr (elems : List (List Char))
  | vfile (originalname : List Char) (mimetype : List Char) (size : Nat)
deriving DecidableEq, Repr

/-- A submission: a JS object as an association list in property order. -/
abbrev Submission := List (List Char × JsVal)

/-- JS property read `data[k]` (first matching key). -/
def objGet (d : Submission) (k : List Char) : Option JsVal :=
  match d with
  | [] => none
  | (k0, v) :: rest => if k0 = k then some v else objGet rest k

/-- `Object.keys(data)`: keys in property order. -/
def objKeys (d : Submission) : List (List Char) := d.map Prod.fst

/-- JS object spread update `\x7b ...d, k: v \x7d`: an existing key keeps its
position and gets the new value; a new key is appended. -/
def spreadSet (d : Submission) (k : List Char) (v : JsVal) : Submission :=
  if k ∈ objKeys d then d.map (fun kv => if kv.1 = k then (k, v) else kv)
  else d ++ [(k, v)]

/-- Whitespace by the JS `String.prototype.trim` notion (ASCII part). -/
def jsWhitespace (c : Char) : Bool :=
  c = ' ' || c = '\t' || c = '\n' || c = '\r' || c = '\x0b' || c = '\x0c'

/-- JS `s.trim()`: strip leading and trailing whitespace. -/
def jsTrim (l : List Char) : List Char :=
  ((l.dropWhile jsWhitespace).reverse.dropWhile jsWhitespace).reverse

/-- JS `String(v)` coercion: arrays join with a bare comma, `null` prints
as `null`, objects print as `[object Object]`. -/
def jsString : JsVal → List Char
  | JsVal.vnull => cs "null"
  | JsVal.vstr s => s
  | JsVal.varr elems => List.intercalate (cs ",") elems
  | JsVal.vfile _ _ _ => cs "[object Object]"

/-- The `EXCLUDE_KEYS` denylist of `groupKeys` in `server.js`. -/
def EXCLUDE_KEYS : List (List Char) :=
  [cs "_id", cs "file", cs "file_name", cs "file_content"]

/-- The five field groups of the classifier. -/
inductive FieldGroup where
  | contact | project | equipment | billing | meta
deriving DecidableEq, Repr

/-- The prefix/literal classification chain of `groupKeys` (the
if/else-if cascade over one key), with the final `else` defaulting to
Project. -/
def classifyKey (k : List Char) : FieldGroup :=
  if (cs "contact_").isPrefixOf k || k = cs "youarea" then FieldGroup.contact
  else if (cs "general_equipment").isPrefixOf k then FieldGroup.equipment
  else if (cs "general_").isPrefixOf k then FieldGroup.project
  else if (cs "billing_").isPrefixOf k || k = cs "billing_Country" then FieldGroup.billing
  else if k = cs "client_date" || k = cs "date" then FieldGroup.meta
  else FieldGroup.project

/-- The `continue` guards of the `groupKeys` loop: a key is kept when it is
not in the denylist and its value is neither `null`/absent nor blank after
trimming its `String(..)` coercion. -/
def keyKept (d : Submission) (k : List Char) : Bool :=
  if k ∈ EXCLUDE_KEYS then false
  else
    match objGet d k with
    | none => false
    | some JsVal.vnull => false
    | some v => !(jsTrim (jsString v)).isEmpty

/-- One group's key list as accumulated by the `groupKeys` loop: the kept
keys classified into that group, in encounter (property) order. -/
def rawGroup (d : Submission) (g : FieldGroup) : List (List Char) :=
  (objKeys d).filter (fun k => keyKept d k && decide (classifyKey k = g))

/-- The `order` helper of `groupKeys`: wanted keys that are present first,
in wanted order, then the remaining keys in their original order. -/
def order (arr : List (List Char)) (wanted : List (List Char)) : List (List Char) :=
  wanted.filter (fun k => decide (k ∈ arr)) ++ arr.filter (fun k => decide (k ∉ wanted))

/-- Preferred ordering for the Contact group (literal list in `groupKeys`). -/
def wantedContact : List (List Char) :=
  [cs "contact_name", cs "contact_email", cs "contact_phone", cs "contact_company",
   cs "contact_firsttime", cs "youarea", cs "contact_shootdays", cs "contact_appointment-dates"]

/-- Preferred ordering for the Project group. -/
def wantedProject : List (List Char) :=
  [cs "general_project-type", cs "general_brandname", cs "general_magazinename",
   cs "general_photographer", cs "general_numberofpeople", cs "general_tellusmore"]

/-- Preferred ordering for the Equipment group. -/
def wantedEquipment : List (List Char) :=
  [cs "general_equipmentlistready", cs "general_eqlisttext"]

/-- Preferred ordering for the Billing group. -/
def wantedBilling : List (List Char) :=
  [cs "billing_details", cs "billing_company", cs "billing_street", cs "billing_city",
   cs "billing_state", cs "billing_postalcode", cs "billing_country", cs "billing_Country",
   cs "billing_vatnumber"]

/-- The preferred list applied to a group: `groupKeys` reorders Contact,
Project, Equipment and Billing; Meta is left in encounter order, which we
record as an empty preferred list. -/
def wantedFor : FieldGroup → List (List Char)
  | FieldGroup.contact => wantedContact
  | FieldGroup.project => wantedProject
  | FieldGroup.equipment => wantedEquipment
  | FieldGroup.billing => wantedBilling
  | FieldGroup.meta => []

/-- The record returned by `groupKeys`. -/
structure Groups where
  contact : List (List Char)
  project : List (List Char)
  equipment : List (List Char)
  billing : List (List Char)
  meta : List (List Char)
deriving DecidableEq, Repr

/-- `groupKeys(data)`: classify the kept keys and order each group. -/
def groupKeys (d : Submission) : Groups :=
  { contact := order (rawGroup d FieldGroup.contact) wantedContact
    project := order (rawGroup d FieldGroup.project) wantedProject
    equipment := order (rawGroup d FieldGroup.equipment) wantedEquipment
    billing := order (rawGroup d FieldGroup.billing) wantedBilling
    meta := rawGroup d FieldGroup.meta }

/-- Selects one of the five lists of a `Groups` record. -/
def groupList (g : Groups) : FieldGroup → List (List Char)
  | FieldGroup.contact => g.contact
  | FieldGroup.project => g.project
  | FieldGroup.equipment => g.equipment
  | FieldGroup.billing => g.billing
  | FieldGroup.meta => g.meta

/-- The `LABELS` lookup table of `server.js`. -/
def LABELS : List (List Char × List Char) :=
  [(cs "contact_name", cs "Name"),
   (cs "contact_email", cs "Email"),
   (cs "contact_phone", cs "Phone"),
   (cs "contact_company", cs "Company"),
   (cs "contact_shootdays", cs "Shoot Days"),
   (cs "contact_appointment-dates", cs "Appointment Dates"),
   (cs "contact_firsttime", cs "First Time?"),
   (cs "youarea", cs "You are"),
   (cs "general_project-type", cs "Project Type"),
   (cs "general_photographer", cs "Photographer"),
   (cs "general_brandname", cs "Brand Name"),
   (cs "general_magazinename", cs "Magazine Name"),
   (cs "general_tellusmore", cs "Tell us more"),
   (cs "general_numberofpeople", cs "Number of People"),
   (cs "general_equipmentlistready", cs "EQ List Ready?"),
   (cs "general_eqlisttext", cs "Equipment List (pasted)"),
   (cs "billing_details", cs "Billing Details"),
   (cs "billing_company", cs "Company"),
   (cs "billing_street", cs "Street"),
   (cs "billing_city", cs "City"),
   (cs "billing_state", cs "State / Region"),
   (cs "billing_postalcode", cs "Postal Code"),
   (cs "billing_country", cs "Country"),
   (cs "billing_Country", cs "Country"),
   (cs "billing_vatnumber", cs "VAT Number"),
   (cs "client_date", cs "Client Time"),
   (cs "date", cs "Server Time")]

/-- First-match lookup in an association list (JS property access on the
`LABELS` literal). -/
def assocGet (l : List (List Char × List Char)) (k : List Char) : Option (List Char) :=
  match l with
  | [] => none
  | (k0, v) :: rest => if k0 = k then some v else assocGet rest k

/-- A separator char of the `titleCase` regex class `[_-]`. -/
def sepChar (c : Char) : Bool := c = '_' || c = '-'

/-- `s.replace([_-]+, ' ')`: each maximal run of separators becomes one
space.  The flag says whether the previous char was a separator. -/
def collapseSeps (prevSep : Bool) : List Char → List Char
  | [] => []
  | c :: rest =>
    if sepChar c then (if prevSep then [] else [' ']) ++ collapseSeps true rest
    else c :: collapseSeps false rest

/-- A word char of the regex `\w` class. -/
def wordChar (c : Char) : Bool := c.isAlphanum || c = '_'

/-- `s.replace(\b\w, toUpperCase)`: upper-case each word char not preceded
by a word char. -/
def upWordStarts (prevWord : Bool) : List Char → List Char
  | [] => []
  | c :: rest =>
    (if wordChar c && !prevWord then c.toUpper else c) :: upWordStarts (wordChar c) rest

/-- `titleCase` of `server.js`. -/
def titleCase (l : List Char) : List Char := upWordStarts false (collapseSeps false l)

/-- `prettyLabel` of `server.js`. -/
def prettyLabel (k : List Char) : List Char :=
  match assocGet LABELS k with
  | some l => l
  | none => titleCase k

/-- One global single-char regex replacement, as used by `escapeHtml`
(`String.prototype.replace` with a one-char pattern). -/
def replaceChar (c : Char) (rep : List Char) : List Char → List Char
  | [] => []
  | x :: rest => (if x = c then rep else [x]) ++ replaceChar c rep rest

/-- `escapeHtml` of `server.js`: the five chained replacements, ampersand
first. -/
def escapeHtml (l : List Char) : List Char :=
  replaceChar '\'' (cs "&#39;")
    (replaceChar '"' (cs "&quot;")
      (replaceChar '>' (cs "&gt;")
        (replaceChar '<' (cs "&lt;")
          (replaceChar '&' (cs "&amp;") l))))

/-- The value rendered for key `k` in `rowsForKeys` and `buildTextEmail`:
arrays join with a comma and space, everything else passes through the JS
string coercion (`String(raw)` resp. template interpolation). -/
def renderedVal (d : Submission) (k : List Char) : List Char :=
  match objGet d k with
  | some (JsVal.varr elems) => List.intercalate (cs ", ") elems
  | some v => jsString v
  | none => cs "undefined"

/-- Template text of a row before the escaped label. -/
def rowTpl1 : List Char :=
  cs "\n      <tr>\n        <td width=\"32%\" style=\"vertical-align:top;border-bottom:1px solid #eee;background:#fafafa\">\n          <strong>"

/-- Template text of a row between the escaped label and the escaped value. -/
def rowTpl2 : List Char :=
  cs "</strong>\n        </td>\n        <td style=\"vertical-align:top;border-bottom:1px solid #eee\">\n          "

/-- Template text of a row after the escaped value. -/
def rowTpl3 : List Char := cs "\n        </td>\n      </tr>"

/-- One `<tr>` of `rowsForKeys`. -/
def rowHtml (d : Submission) (k : List Char) : List Char :=
  rowTpl1 ++ escapeHtml (prettyLabel k) ++ rowTpl2 ++ escapeHtml (renderedVal d k) ++ rowTpl3

/-- `rowsForKeys` of `server.js` (`.map(..).join('')`). -/
def rowsForKeys (d : Submission) (ks : List (List Char)) : List Char :=
  (ks.map (rowHtml d)).flatten

/-- Section template before the escaped title. -/
def secTpl1 : List Char :=
  cs "\n    <h3 style=\"margin:16px 0 6px 0;font-family:Arial,Helvetica,sans-serif;\n               font-weight:600;font-size:14px\">"

/-- Section template between title and rows. -/
def secTpl2 : List Char :=
  cs "</h3>\n    <table width=\"100%\" cellpadding=\"6\" cellspacing=\"0\"\n           style=\"border-collapse:collapse;border:1px solid #eee;\n                  font-family:Arial,Helvetica,sans-serif;font-size:13px\">\n      "

/-- Section template after the rows. -/
def secTpl3 : List Char := cs "\n    </table>"

/-- `sectionTableHtml` of `server.js`: empty rows produce no output at all. -/
def sectionTableHtml (title rowsHtml : List Char) : List Char :=
  if rowsHtml = [] then []
  else secTpl1 ++ escapeHtml title ++ secTpl2 ++ rowsHtml ++ secTpl3

/-- The two rendering audiences. -/
inductive Audience where
  | admin | client
deriving DecidableEq, Repr

/-- `data.contact_name || ''` fed to `escapeHtml` in the client intro
(escapeHtml itself applies the JS string coercion; empty strings and null
are falsy and become the empty string, arrays coerce to a comma join). -/
def contactNameVal (d : Submission) : List Char :=
  match objGet d (cs "contact_name") with
  | some (JsVal.vstr s) => s
  | some (JsVal.varr elems) => List.intercalate (cs ",") elems
  | some (JsVal.vfile _ _ _) => cs "[object Object]"
  | _ => []

/-- Client intro template before the escaped contact name. -/
def introClientTpl1 : List Char :=
  cs "<p style=\"font-family:Arial,Helvetica,sans-serif;font-size:14px\">\n           Hi "

/-- Client intro template after the escaped contact name. -/
def introClientTpl2 : List Char :=
  cs ",<br>\n           thanks for your booking request. Here’s what we received:\n         </p>"

/-- The fixed admin intro paragraph. -/
def introAdmin : List Char :=
  cs "<p style=\"font-family:Arial,Helvetica,sans-serif;font-size:14px\">\n           A new booking was submitted:\n         </p>"

/-- The audience-specific intro of `buildHtmlEmail`. -/
def introFor (d : Submission) : Audience → List Char
  | Audience.client => introClientTpl1 ++ escapeHtml (contactNameVal d) ++ introClientTpl2
  | Audience.admin => introAdmin

/-- The audience-specific outro of `buildHtmlEmail` (admin gets none). -/
def outroFor : Audience → List Char
  | Audience.client =>
    cs "<p style=\"font-family:Arial,Helvetica,sans-serif;font-size:13px;margin-top:16px\">\n           We’ll get back to you shortly.<br>\n           — Maria Studio\n         </p>"
  | Audience.admin => []

/-- Outer wrapper template before the intro. -/
def outerTpl1 : List Char :=
  cs "\n    <div style=\"max-width:680px;margin:0 auto;padding:12px\">\n      "

/-- Outer wrapper text between intro and sections, and again between the
sections and the outro. -/
def outerSep : List Char := cs "\n      "

/-- Outer wrapper template closing the document. -/
def outerTpl3 : List Char := cs "\n    </div>"

/-- `buildHtmlEmail` of `server.js`. -/
def buildHtmlEmail (d : Submission) (a : Audience) : List Char :=
  let g := groupKeys d
  outerTpl1 ++ introFor d a ++ outerSep
    ++ sectionTableHtml (cs "Contact") (rowsForKeys d g.contact)
    ++ sectionTableHtml (cs "Project") (rowsForKeys d g.project)
    ++ sectionTableHtml (cs "Equipment") (rowsForKeys d g.equipment)
    ++ sectionTableHtml (cs "Billing") (rowsForKeys d g.billing)
    ++ sectionTableHtml (cs "Meta") (rowsForKeys d g.meta)
    ++ outerSep ++ outroFor a ++ outerTpl3

/-- The section heading used for each group in `buildHtmlEmail`. -/
def sectionTitle : FieldGroup → List Char
  | FieldGroup.contact => cs "Contact"
  | FieldGroup.project => cs "Project"
  | FieldGroup.equipment => cs "Equipment"
  | FieldGroup.billing => cs "Billing"
  | FieldGroup.meta => cs "Meta"

/-- One `label: value` line of `buildTextEmail`. -/
def textLine (d : Submission) (k : List Char) : List Char :=
  prettyLabel k ++ cs ": " ++ renderedVal d k

/-- The `render` helper of `buildTextEmail` (`.map(..).join('\n')`). -/
def renderTextKeys (d : Submission) (ks : List (List Char)) : List Char :=
  List.intercalate (cs "\n") (ks.map (textLine d))

/-- `buildTextEmail` of `server.js`: non-empty groups pushed with their
upper-case header, then joined with newlines. -/
def buildTextEmail (d : Submission) : List Char :=
  let g := groupKeys d
  let parts : List (List Char) :=
    (if g.contact ≠ [] then [cs "CONTACT\n" ++ renderTextKeys d g.contact] else [])
    ++ (if g.project ≠ [] then [cs "\nPROJECT\n" ++ renderTextKeys d g.project] else [])
    ++ (if g.equipment ≠ [] then [cs "\nEQUIPMENT\n" ++ renderTextKeys d g.equipment] else [])
    ++ (if g.billing ≠ [] then [cs "\nBILLING\n" ++ renderTextKeys d g.billing] else [])
    ++ (if g.meta ≠ [] then [cs "\nMETA\n" ++ renderTextKeys d g.meta] else [])
  List.intercalate (cs "\n") parts

/-! ## Notifier -/

/-- Transport configuration read from the environment (the parts the
notifier puts into messages). -/
structure Env where
  emailUser : List Char
  emailTo : List Char
deriving DecidableEq, Repr

/-- The `from` display string of both senders. -/
def fromStr (env : Env) : List Char :=
  cs "\"Maria Studio Booking\" <" ++ env.emailUser ++ cs ">"

/-- One file held in memory by multer for the request (`req.file`). -/
structure UploadFile where
  originalname : List Char
  mimetype : List Char
  size : Nat
  buffer : List Nat
deriving DecidableEq, Repr

/-- A nodemailer message as assembled by the notifier. -/
structure Mail where
  fromAddr : List Char
  toAddr : List Char
  replyTo : Option (List Char)
  subject : List Char
  html : Option (List Char)
  text : List Char
  attachments : List (List Char × List Nat × List Char)
deriving DecidableEq, Repr

/-- `(data.contact_email || '').trim()`.  On a string, null or absent field
this yields the trimmed string (falsy values fall back to `''`); on an
array or object value `.trim` is not a function and the expression raises a
TypeError, modelled as `none`. -/
def contactEmailTrimmed (d : Submission) : Option (List Char) :=
  match objGet d (cs "contact_email") with
  | some (JsVal.vstr s) => some (jsTrim s)
  | some JsVal.vnull => some []
  | none => some []
  | some (JsVal.varr _) => none
  | some (JsVal.vfile _ _ _) => none

/-- The admin message of `sendBookingNotification` (attachment if and only
if a file was uploaded; reply-to is the client email when non-blank). -/
def adminMail (d : Submission) (file : Option UploadFile) (env : Env) (ce : List Char) : Mail :=
  { fromAddr := fromStr env
    toAddr := env.emailTo
    replyTo := some (if ce = [] then fromStr env else ce)
    subject := cs "📸 New Booking Received"
    html := some (buildHtmlEmail d Audience.admin)
    text := buildTextEmail d
    attachments :=
      match file with
      | some f => [(f.originalname, f.buffer, f.mimetype)]
      | none => [] }

/-- The client confirmation message of `sendBookingNotification`. -/
def clientMail (d : Submission) (env : Env) (ce : List Char) : Mail :=
  { fromAddr := fromStr env
    toAddr := ce
    replyTo := none
    subject := cs "We received your booking – Maria Studio"
    html := some (buildHtmlEmail d Audience.client)
    text := buildTextEmail d
    attachments := [] }

/-- `sendBookingNotification` of `server.js` (the HTML/text variant).  The
transport's outcome per message is a parameter; a thrown send aborts the
rest.  The result is `none` when computing the client email raises, and
otherwise the list of attempted sends with the overall success flag. -/
def sendBookingNotification (d : Submission) (file : Option UploadFile) (env : Env)
    (transport : Mail → Bool) : Option (List Mail × Bool) :=
  match contactEmailTrimmed d with
  | none => none
  | some ce =>
    let a := adminMail d file env ce
    if transport a = false then some ([a], false)
    else if ce = [] then some ([a], true)
    else
      let c := clientMail d env ce
      some ([a, c], transport c)

/-- Whether the notification step completed without throwing. -/
def notifySucceeded (d : Submission) (file : Option UploadFile) (env : Env)
    (transport : Mail → Bool) : Bool :=
  match sendBookingNotification d file env transport with
  | some (_, true) => true
  | _ => false

/-! ## Store and handlers -/

/-- A persisted document: the stored identifier plus the record fields.
Modelled from the spec: the document-database `put` assigns a fresh
identifier and appends the document; `listAll` returns every stored
document.  We realise the fresh identifier as the current store length. -/
structure StoredDoc where
  id : Nat
  data : Submission
deriving DecidableEq, Repr

/-- An HTTP response of the handlers. -/
structure HttpResponse where
  status : Nat
  body : List Char
  bookingId : Option Nat
deriving DecidableEq, Repr

/-- The generic storage/notification failure response of the submit
handlers. -/
def fail500 : HttpResponse :=
  { status := 500, body := cs "Failed to save booking", bookingId := none }

/-- Everything observable after a submit request: the response, the final
store contents, and the messages whose send was attempted. -/
structure SubmitOutcome where
  response : HttpResponse
  store : List StoredDoc
  mails : List Mail
deriving Repr

/-- The booking record built by the multipart `/submit-booking` handler of
`server.js`: the body fields, the server timestamp under `date`, and the
lightweight file metadata under `file` when a file was uploaded. -/
def buildRecord (body : Submission) (file : Option UploadFile) (now : List Char) : Submission :=
  let base := spreadSet body (cs "date") (JsVal.vstr now)
  match file with
  | some f => spreadSet base (cs "file") (JsVal.vfile f.originalname f.mimetype f.size)
  | none => base

/-- The multipart `/submit-booking` handler of `server.js`: build the
record, insert it, then notify; any throw (a failed insert, or a throw
from the notification step) lands in the catch and yields the generic 500,
without rolling back an already-completed insert. -/
def submitBooking (body : Submission) (file : Option UploadFile) (now : List Char)
    (env : Env) (transport : Mail → Bool) (store : List StoredDoc) (insertOk : Bool) :
    SubmitOutcome :=
  let record := buildRecord body file now
  if insertOk = false then { response := fail500, store := store, mails := [] }
  else
    let newId := store.length
    let store2 := store ++ [{ id := newId, data := record }]
    match sendBookingNotification record file env transport with
    | none => { response := fail500, store := store2, mails := [] }
    | some (sends, ok) =>
      if ok then
        { response := { status := 200, body := cs "Booking saved", bookingId := some newId }
          store := store2, mails := sends }
      else { response := fail500, store := store2, mails := sends }

/-- The observable outcome of the protected `GET /bookings` handler. -/
structure ListOutcome where
  status : Nat
  bookings : Option (List StoredDoc)
  storeQueried : Bool
deriving DecidableEq, Repr

/-- The `GET /bookings` handler of `server.js`: bearer check first, and only
on an exact match is the store queried (`find().toArray()` modelled from the
spec as returning every stored document, or failing). -/
def getBookings (authHeader : Option (List Char)) (adminPassword : List Char)
    (findResult : Except Unit (List StoredDoc)) : ListOutcome :=
  match authHeader with
  | none => { status := 401, bookings := none, storeQueried := false }
  | some h =>
    if h = [] ∨ h ≠ cs "Bearer " ++ adminPassword then
      { status := 401, bookings := none, storeQueried := false }
    else
      match findResult with
      | Except.ok l => { status := 200, bookings := some l, storeQueried := true }
      | Except.error _ => { status := 500, bookings := none, storeQueried := true }

/-- The observable outcome of the flat-file `GET /bookings` handler. -/
structure FlatListOutcome where
  status : Nat
  bookings : Option (List Submission)
  storeQueried : Bool
deriving DecidableEq, Repr

/-- The `GET /bookings` handler of the flat-file variant (`part_001`): it
performs no credential check at all — the authorization header is never
inspected — and every request reads the store file; a successful
read/parse is answered 200 with the parsed records, a failing one 500. -/
def getBookingsFlatFile (_authHeader : Option (List Char))
    (readResult : Except Unit (List Submission)) : FlatListOutcome :=
  match readResult with
  | Except.ok l => { status := 200, bookings := some l, storeQueried := true }
  | Except.error _ => { status := 500, bookings := none, storeQueried := true }

/-! ## Flat-file variant -/

/-- The observable outcome of the flat-file `/submit-booking` handler:
the response, and the file contents after the write (`none` when the write
itself threw, leaving the contents unspecified and the request failed). -/
structure FlatOutcome where
  response : HttpResponse
  fileContent : Option (List Submission)
deriving Repr

/-- The flat-file `/submit-booking` handler: `readFileSync` + `JSON.parse`
sit in a try whose catch only logs, so a failed read leaves `current` as
the empty list; the handler then overwrites the file with
`current ++ [record]` and responds success.  A throwing `writeFileSync` is
uncaught and surfaces as the framework's 500. -/
def submitBookingFlatFile (body : Submission) (now : List Char) (prev : List Submission)
    (readOk : Bool) (writeOk : Bool) : FlatOutcome :=
  let current := if readOk then prev else []
  let record := spreadSet body (cs "date") (JsVal.vstr now)
  let next := current ++ [record]
  if writeOk then
    { response := { status := 200, body := cs "Booking received", bookingId := none }
      fileContent := some next }
  else
    { response := { status := 500, body := [], bookingId := none }, fileContent := none }

/-! ## Upload-filtering variant (multer + PDF filter) -/

/-- The `fileFilter` of the multer configuration: PDFs only. -/
def fileFilterAccepts (f : UploadFile) : Bool := f.mimetype = cs "application/pdf"

/-- `Object.entries(data).map(k: v).join('\n')` of the simple notifier. -/
def formattedLines (d : Submission) : List Char :=
  List.intercalate (cs "\n") (d.map (fun kv => kv.1 ++ cs ": " ++ jsString kv.2))

/-- The single message of the simple (text-only) notifier variant. -/
def simpleMail (d : Submission) (file : Option UploadFile) (env : Env) : Mail :=
  { fromAddr := fromStr env
    toAddr := env.emailTo
    replyTo := none
    subject := cs "📸 New Booking Received"
    html := none
    text := cs "A new booking was submitted:\n\n" ++ formattedLines d
    attachments :=
      match file with
      | some f => [(f.originalname, f.buffer, f.mimetype)]
      | none => [] }

/-- The route handler body of the upload variant: record with
`uploaded_file` metadata (null when no file) and server `date`, insert,
notify, respond; throws land in the catch as the generic 500. -/
def uploadHandlerBody (body : Submission) (file : Option UploadFile) (now : List Char)
    (env : Env) (transport : Mail → Bool) (store : List StoredDoc) (insertOk : Bool) :
    SubmitOutcome :=
  let meta : JsVal :=
    match file with
    | some f => JsVal.vfile f.originalname f.mimetype f.size
    | none => JsVal.vnull
  let record := spreadSet (spreadSet body (cs "uploaded_file") meta) (cs "date") (JsVal.vstr now)
  if insertOk = false then { response := fail500, store := store, mails := [] }
  else
    let newId := store.length
    let store2 := store ++ [{ id := newId, data := record }]
    let m := simpleMail record file env
    if transport m = false then { response := fail500, store := store2, mails := [m] }
    else
      { response := { status := 200, body := cs "Booking saved", bookingId := some newId }
        store := store2, mails := [m] }

/-- The full upload route.  Modelled from the spec: multer runs before the
handler, enforcing the `fileFilter` (source) and the configured 10 MB
`fileSize` limit (library behaviour stated by the spec); a violation is
turned into a 400 by the error-handling middleware before any storage or
email work. -/
def submitWithUpload (body : Submission) (file : Option UploadFile) (now : List Char)
    (env : Env) (transport : Mail → Bool) (store : List StoredDoc) (insertOk : Bool) :
    SubmitOutcome :=
  match file with
  | none => uploadHandlerBody body none now env transport store insertOk
  | some f =>
    if fileFilterAccepts f = false then
      { response := { status := 400, body := cs "Only PDF files are allowed.", bookingId := none }
        store := store, mails := [] }
    else if 10 * 1024 * 1024 < f.size then
      { response := { status := 400, body := cs "File too large", bookingId := none }
        store := store, mails := [] }
    else uploadHandlerBody body (some f) now env transport store insertOk

/-! ## Specification-side characterisation of the escaping -/

/-- The five-entity table of the spec ("escaped for the five standard HTML
special characters"): the per-character translation that `escapeHtml` is
claimed to implement. -/
def htmlEntity (c : Char) : List Char :=
  if c = '&' then cs "&amp;"
  else if c = '<' then cs "&lt;"
  else if c = '>' then cs "&gt;"
  else if c = '"' then cs "&quot;"
  else if c = '\'' then cs "&#39;"
  else [c]

/-- Character-wise application of the entity table. -/
def escapeMap : List Char → List Char
  | [] => []
  | c :: rest => htmlEntity c ++ escapeMap rest

/-- Absence of any beginning of the forbidden markup `<script` near the end
of a chunk, and of the three-character seed `<sc` anywhere in it.  The seed
is enough: a raw `<script>` occurrence contains `<sc`, escaped segments
contain no `<` at all, and no template chunk of the renderer ends in `<` or
`<s`, so `Good` is preserved by concatenation. -/
def Good (l : List Char) : Prop :=
  ¬ (['<'] <:+ l) ∧ ¬ (['<', 's'] <:+ l) ∧ ¬ (['<', 's', 'c'] <:+: l)

instance (l : List Char) : Decidable (Good l) := by
  unfold Good; infer_instance

/-! ## Lemmas: object access -/

theorem mem_objKeys_cons {kv : List Char × JsVal} {rest : Submission} {k : List Char} :
    k ∈ objKeys (kv :: rest) ↔ kv.1 = k ∨ k ∈ objKeys rest := by
  simp only [objKeys, List.map_cons, List.mem_cons]
  constructor
  · rintro (h | h)
    · exact Or.inl h.symm
    · exact Or.inr h
  · rintro (h | h)
    · exact Or.inl h.symm
    · exact Or.inr h

theorem objGet_cons (kv : List Char × JsVal) (rest : Submission) (k : List Char) :
    objGet (kv :: rest) k = if kv.1 = k then some kv.2 else objGet rest k := by
  rcases kv with ⟨k0, v0⟩
  rfl

theorem objGet_mem_keys {d : Submission} {k : List Char} {v : JsVal}
    (h : objGet d k = some v) : k ∈ objKeys d := by
  induction d with
  | nil => simp [objGet] at h
  | cons kv rest ih =>
    rw [objGet_cons] at h
    by_cases hk : kv.1 = k
    · exact mem_objKeys_cons.mpr (Or.inl hk)
    · rw [if_neg hk] at h
      exact mem_objKeys_cons.mpr (Or.inr (ih h))

/-- The per-entry replacement performed by `spreadSet` on an existing key. -/
theorem objGet_mapRep_self (k : List Char) (v : JsVal) :
    ∀ d : Submission, k ∈ objKeys d →
      objGet (d.map (fun kv => if kv.1 = k then (k, v) else kv)) k = some v := by
  intro d
  induction d with
  | nil => intro h; simp [objKeys] at h
  | cons kv rest ih =>
    intro hmem
    rw [List.map_cons]
    by_cases hk : kv.1 = k
    · rw [if_pos hk, objGet_cons, if_pos rfl]
    · rw [if_neg hk, objGet_cons, if_neg hk]
      rcases mem_objKeys_cons.mp hmem with h | h
      · exact absurd h hk
      · exact ih h

theorem objGet_mapRep_other (k : List Char) (v : JsVal) {k' : List Char} (hne : k' ≠ k) :
    ∀ d : Submission,
      objGet (d.map (fun kv => if kv.1 = k then (k, v) else kv)) k' = objGet d k' := by
  intro d
  induction d with
  | nil => simp [objGet]
  | cons kv rest ih =>
    rw [List.map_cons]
    by_cases hk : kv.1 = k
    · have h2 : ¬ kv.1 = k' := by rw [hk]; exact fun h => hne h.symm
      rw [if_pos hk, objGet_cons, objGet_cons, if_neg h2]
      have h3 : ¬ (k, v).1 = k' := fun h => hne h.symm
      rw [if_neg h3, ih]
    · rw [if_neg hk, objGet_cons, objGet_cons]
      by_cases hk' : kv.1 = k'
      · rw [if_pos hk', if_pos hk']
      · rw [if_neg hk', if_neg hk', ih]

theorem objGet_append_right (k : List Char) :
    ∀ (d e : Submission), k ∉ objKeys d → objGet (d ++ e) k = objGet e k := by
  intro d e
  induction d with
  | nil => intro _; rfl
  | cons kv rest ih =>
    intro hmem
    have hk : ¬ kv.1 = k := fun h => hmem (mem_objKeys_cons.mpr (Or.inl h))
    have hmem2 : k ∉ objKeys rest := fun h => hmem (mem_objKeys_cons.mpr (Or.inr h))
    rw [List.cons_append, objGet_cons, if_neg hk]
    exact ih hmem2

theorem objGet_spreadSet_self (d : Submission) (k : List Char) (v : JsVal) :
    objGet (spreadSet d k v) k = some v := by
  unfold spreadSet
  by_cases hmem : k ∈ objKeys d
  · rw [if_pos hmem]
    exact objGet_mapRep_self k v d hmem
  · rw [if_neg hmem, objGet_append_right k d _ hmem, objGet_cons, if_pos rfl]

theorem objGet_spreadSet_other (d : Submission) {k k' : List Char} (v : JsVal)
    (hne : k' ≠ k) : objGet (spreadSet d k v) k' = objGet d k' := by
  unfold spreadSet
  by_cases hmem : k ∈ objKeys d
  · rw [if_pos hmem]
    exact objGet_mapRep_other k v hne d
  · rw [if_neg hmem]
    induction d with
    | nil =>
      rw [List.nil_append, objGet, objGet_cons]
      have : ¬ (k, v).1 = k' := fun h => hne h.symm
      rw [if_neg this]
      rfl
    | cons kv rest ih =>
      rw [List.cons_append, objGet_cons, objGet_cons]
      by_cases hk' : kv.1 = k'
      · rw [if_pos hk', if_pos hk']
      · have hmem2 : k ∉ objKeys rest := fun h => hmem (mem_objKeys_cons.mpr (Or.inr h))
        rw [if_neg hk', if_neg hk']
        exact ih hmem2

/-! ## Lemmas: classifier membership -/

theorem mem_order {k : List Char} {arr wanted : List (List Char)} :
    k ∈ order arr wanted ↔ k ∈ arr := by
  simp only [order, List.mem_append, List.mem_filter, decide_eq_true_eq]
  constructor
  · rintro (⟨_, h⟩ | ⟨h, _⟩) <;> exact h
  · intro h
    by_cases hw : k ∈ wanted
    · exact Or.inl ⟨hw, h⟩
    · exact Or.inr ⟨h, hw⟩

theorem mem_rawGroup {d : Submission} {k : List Char} {g : FieldGroup} :
    k ∈ rawGroup d g ↔ k ∈ objKeys d ∧ keyKept d k = true ∧ classifyKey k = g := by
  simp [rawGroup, List.mem_filter, Bool.and_eq_true, decide_eq_true_eq, and_assoc]

theorem mem_groupList {d : Submission} {k : List Char} (g : FieldGroup) :
    k ∈ groupList (groupKeys d) g ↔
      k ∈ objKeys d ∧ keyKept d k = true ∧ classifyKey k = g := by
  cases g <;>
    simp only [groupKeys, groupList, mem_order, mem_rawGroup]

/-- Claim C2: every key that survives the denylist and the blank-value
check lands in exactly one of the five groups (the classification chain is
total, with the final else defaulting to Project, and disjoint); a key in
the denylist, an absent or null value, and a value that is blank after
trimming all put the key in no group. -/
theorem c2_classifier_total_disjoint (d : Submission) (k : List Char) :
    (∀ v : JsVal, objGet d k = some v → k ∉ EXCLUDE_KEYS → v ≠ JsVal.vnull →
        jsTrim (jsString v) ≠ [] →
        ∃! g : FieldGroup, k ∈ groupList (groupKeys d) g) ∧
    ((k ∈ EXCLUDE_KEYS ∨ objGet d k = none ∨ objGet d k = some JsVal.vnull ∨
        (∃ v, objGet d k = some v ∧ jsTrim (jsString v) = [])) →
      ∀ g : FieldGroup, k ∉ groupList (groupKeys d) g) := by
  constructor
  · intro v hv hexc hnull htrim
    have hkeys : k ∈ objKeys d := objGet_mem_keys hv
    have hkept : keyKept d k = true := by
      unfold keyKept
      rw [if_neg hexc, hv]
      cases v with
      | vnull => exact absurd rfl hnull
      | vstr s => simpa [List.isEmpty_iff] using htrim
      | varr elems => simpa [List.isEmpty_iff] using htrim
      | vfile a b c => simpa [List.isEmpty_iff] using htrim
    refine ⟨classifyKey k, ?_, ?_⟩
    · exact (mem_groupList (classifyKey k)).mpr ⟨hkeys, hkept, rfl⟩
    · intro g hg
      exact ((mem_groupList g).mp hg).2.2.symm
  · intro hdrop g hg
    obtain ⟨hkeys, hkept, _⟩ := (mem_groupList g).mp hg
    unfold keyKept at hkept
    rcases hdrop with hexc | hnone | hnull | ⟨v, hv, htrim⟩
    · rw [if_pos hexc] at hkept; exact Bool.false_ne_true hkept
    · rw [hnone] at hkept
      split at hkept <;> simp_all
    · rw [hnull] at hkept
      split at hkept <;> simp_all
    · rw [hv] at hkept
      split at hkept
      · exact Bool.false_ne_true hkept
      · cases v <;> simp_all [List.isEmpty_iff]

/-- Witness for C2 on a concrete submission. -/
theorem c2_witness :
    ∃! g : FieldGroup,
      cs "contact_name" ∈
        groupList (groupKeys [(cs "contact_name", JsVal.vstr (cs "Jane"))]) g := by
  refine (c2_classifier_total_disjoint
      [(cs "contact_name", JsVal.vstr (cs "Jane"))] (cs "contact_name")).1
    (JsVal.vstr (cs "Jane")) (by decide) (by decide) (by decide) (by decide)

/-- Claim C3: each group of `groupKeys` is the keys of the group that occur
in the group's fixed preferred list, in the preferred list's order, followed
by the remaining keys of the group in their original encounter order
(`rawGroup` is the group's kept keys in encounter order; Meta has an empty
preferred list).  Determinism is definitional: `groupKeys` is a pure
function of the submission. -/
theorem c3_group_ordering (d : Submission) (g : FieldGroup) :
    ∃ pre post,
      groupList (groupKeys d) g = pre ++ post ∧
      pre.Sublist (wantedFor g) ∧
      (∀ k, k ∈ pre ↔ k ∈ wantedFor g ∧ k ∈ rawGroup d g) ∧
      post.Sublist (rawGroup d g) ∧
      (∀ k, k ∈ post ↔ k ∈ rawGroup d g ∧ k ∉ wantedFor g) := by
  refine ⟨(wantedFor g).filter (fun k => decide (k ∈ rawGroup d g)),
          (rawGroup d g).filter (fun k => decide (k ∉ wantedFor g)), ?_, ?_, ?_, ?_, ?_⟩
  · cases g <;>
      simp [groupKeys, groupList, order, wantedFor]
  · exact List.filter_sublist _
  · intro k; simp [List.mem_filter]
  · exact List.filter_sublist _
  · intro k; simp [List.mem_filter]

/-- Witness for C3 on a concrete submission and group. -/
theorem c3_witness :
    ∃ pre post,
      groupList (groupKeys [(cs "contact_email", JsVal.vstr (cs "jane@x.com")),
                            (cs "contact_name", JsVal.vstr (cs "Jane"))]) FieldGroup.contact
          = pre ++ post ∧
      pre.Sublist (wantedFor FieldGroup.contact) ∧
      (∀ k, k ∈ pre ↔ k ∈ wantedFor FieldGroup.contact ∧
        k ∈ rawGroup [(cs "contact_email", JsVal.vstr (cs "jane@x.com")),
                      (cs "contact_name", JsVal.vstr (cs "Jane"))] FieldGroup.contact) ∧
      post.Sublist (rawGroup [(cs "contact_email", JsVal.vstr (cs "jane@x.com")),
                              (cs "contact_name", JsVal.vstr (cs "Jane"))] FieldGroup.contact) ∧
      (∀ k, k ∈ post ↔
        k ∈ rawGroup [(cs "contact_email", JsVal.vstr (cs "jane@x.com")),
                      (cs "contact_name", JsVal.vstr (cs "Jane"))] FieldGroup.contact ∧
        k ∉ wantedFor FieldGroup.contact) :=
  c3_group_ordering
    [(cs "contact_email", JsVal.vstr (cs "jane@x.com")),
     (cs "contact_name", JsVal.vstr (cs "Jane"))] FieldGroup.contact

/-! ## Notifier claims -/

theorem clientMail_ne_adminMail (d d' : Submission) (file : Option UploadFile)
    (env env' : Env) (ce ce' : List Char) :
    clientMail d env ce ≠ adminMail d' file env' ce' := by
  intro h
  have hsub := congrArg Mail.subject h
  simp only [clientMail, adminMail] at hsub
  exact absurd hsub (by decide)

/-- Claim C5: the client confirmation send is attempted exactly when the
admin send succeeded and the trimmed contact email is non-blank; a failed
admin send makes the whole notify fail with only the admin attempt made. -/
theorem c5_client_send_iff (d : Submission) (file : Option UploadFile) (env : Env)
    (transport : Mail → Bool) (ce : List Char)
    (h : contactEmailTrimmed d = some ce) :
    ((∃ r, sendBookingNotification d file env transport = some r ∧
        clientMail d env ce ∈ r.1) ↔
      transport (adminMail d file env ce) = true ∧ ce ≠ []) ∧
    (transport (adminMail d file env ce) = false →
      sendBookingNotification d file env transport =
        some ([adminMail d file env ce], false)) := by
  unfold sendBookingNotification
  rw [h]
  dsimp only
  by_cases ht : transport (adminMail d file env ce) = false
  · rw [if_pos ht]
    refine ⟨⟨?_, ?_⟩, fun _ => rfl⟩
    · rintro ⟨r, hr, hm⟩
      obtain rfl : ([adminMail d file env ce], false) = r := Option.some.inj hr
      rcases List.mem_singleton.mp hm with h
      exact absurd h (clientMail_ne_adminMail d d file env env ce ce)
    · rintro ⟨h1, _⟩
      rw [ht] at h1
      exact absurd h1 (by decide)
  · have ht' : transport (adminMail d file env ce) = true := by
      cases hb : transport (adminMail d file env ce)
      · exact absurd hb ht
      · rfl
    rw [if_neg ht]
    by_cases hce : ce = []
    · rw [if_pos hce]
      refine ⟨⟨?_, ?_⟩, fun hf => absurd hf ht⟩
      · rintro ⟨r, hr, hm⟩
        obtain rfl : ([adminMail d file env ce], true) = r := Option.some.inj hr
        rcases List.mem_singleton.mp hm with h
        exact absurd h (clientMail_ne_adminMail d d file env env ce ce)
      · rintro ⟨_, hne⟩
        exact absurd hce hne
    · rw [if_neg hce]
      refine ⟨⟨fun _ => ⟨ht', hce⟩, fun _ => ?_⟩, fun hf => absurd hf ht⟩
      exact ⟨([adminMail d file env ce, clientMail d env ce],
              transport (clientMail d env ce)), rfl, by simp⟩

/-- Witness for C5: a concrete record with a non-blank contact email and a
transport that accepts everything. -/
theorem c5_witness :
    contactEmailTrimmed [(cs "contact_email", JsVal.vstr (cs "jane@x.com"))] =
        some (cs "jane@x.com") ∧
    ((∃ r, sendBookingNotification [(cs "contact_email", JsVal.vstr (cs "jane@x.com"))]
          none { emailUser := cs "studio@example.com", emailTo := cs "bookings@example.com" }
          (fun _ => true) = some r ∧
        clientMail [(cs "contact_email", JsVal.vstr (cs "jane@x.com"))]
          { emailUser := cs "studio@example.com", emailTo := cs "bookings@example.com" }
          (cs "jane@x.com") ∈ r.1) ↔
      (fun (_ : Mail) => true)
          (adminMail [(cs "contact_email", JsVal.vstr (cs "jane@x.com"))] none
            { emailUser := cs "studio@example.com", emailTo := cs "bookings@example.com" }
            (cs "jane@x.com")) = true ∧ cs "jane@x.com" ≠ []) ∧
    ((fun (_ : Mail) => true)
          (adminMail [(cs "contact_email", JsVal.vstr (cs "jane@x.com"))] none
            { emailUser := cs "studio@example.com", emailTo := cs "bookings@example.com" }
            (cs "jane@x.com")) = false →
      sendBookingNotification [(cs "contact_email", JsVal.vstr (cs "jane@x.com"))] none
          { emailUser := cs "studio@example.com", emailTo := cs "bookings@example.com" }
          (fun _ => true) =
        some ([adminMail [(cs "contact_email", JsVal.vstr (cs "jane@x.com"))] none
            { emailUser := cs "studio@example.com", emailTo := cs "bookings@example.com" }
            (cs "jane@x.com")], false)) := by
  refine ⟨by decide, ?_, ?_⟩
  · exact (c5_client_send_iff _ none _ (fun _ => true) _ (by decide)).1
  · exact (c5_client_send_iff _ none _ (fun _ => true) _ (by decide)).2

/-- Claim C10: every message assembled by `sendBookingNotification` carries
the same plain-text body — `buildTextEmail` takes no audience parameter, so
the admin and client text bodies are byte-identical and only the HTML
bodies differ between the two recipients. -/
theorem c10_text_bodies_equal (d : Submission) (file : Option UploadFile) (env : Env)
    (transport : Mail → Bool) (r : List Mail × Bool)
    (h : sendBookingNotification d file env transport = some r) :
    ∀ m1 ∈ r.1, ∀ m2 ∈ r.1, m1.text = m2.text := by
  unfold sendBookingNotification at h
  cases hce : contactEmailTrimmed d with
  | none => rw [hce] at h; exact absurd h (by simp)
  | some ce =>
    rw [hce] at h
    dsimp only at h
    have htext : ∀ m ∈ r.1, m.text = buildTextEmail d := by
      split_ifs at h
      · obtain rfl : ([adminMail d file env ce], false) = r := Option.some.inj h
        intro m hm
        rcases List.mem_singleton.mp hm with h
        rw [h]; rfl
      · obtain rfl : ([adminMail d file env ce], true) = r := Option.some.inj h
        intro m hm
        rcases List.mem_singleton.mp hm with h
        rw [h]; rfl
      · obtain rfl :
          ([adminMail d file env ce, clientMail d env ce],
            transport (clientMail d env ce)) = r := Option.some.inj h
        intro m hm
        rcases List.mem_cons.mp hm with h | hm2
        · rw [h]; rfl
        · rcases List.mem_singleton.mp hm2 with h
          rw [h]; rfl
    intro m1 hm1 m2 hm2
    rw [htext m1 hm1, htext m2 hm2]

/-- Witness for C10: at a concrete submission with a contact email both the
admin and the client message are assembled, and their text bodies coincide. -/
theorem c10_witness :
    (adminMail [(cs "contact_email", JsVal.vstr (cs "jane@x.com"))] none
      { emailUser := cs "u@example.com", emailTo := cs "t@example.com" }
      (cs "jane@x.com")).text =
    (clientMail [(cs "contact_email", JsVal.vstr (cs "jane@x.com"))]
      { emailUser := cs "u@example.com", emailTo := cs "t@example.com" }
      (cs "jane@x.com")).text :=
  c10_text_bodies_equal [(cs "contact_email", JsVal.vstr (cs "jane@x.com"))] none
    { emailUser := cs "u@example.com", emailTo := cs "t@example.com" } (fun _ => true)
    ([adminMail [(cs "contact_email", JsVal.vstr (cs "jane@x.com"))] none
        { emailUser := cs "u@example.com", emailTo := cs "t@example.com" }
        (cs "jane@x.com"),
      clientMail [(cs "contact_email", JsVal.vstr (cs "jane@x.com"))]
        { emailUser := cs "u@example.com", emailTo := cs "t@example.com" }
        (cs "jane@x.com")], true) rfl
    _ (List.mem_cons_self _ _)
    _ (List.mem_cons_of_mem _ (List.mem_singleton.mpr rfl))

/-! ## Listing handler claim -/

theorem bearerExpected_ne_nil (pwd : List Char) : cs "Bearer " ++ pwd ≠ [] := by
  intro h
  exact absurd (congrArg List.length h) (by simp [cs])

/-- Claim C6 as stated is false on the flat-file listing handler of
`part_001`: that handler performs no credential check — a request without
any Authorization header is answered 200 with the store contents, and the
store is read on every request. -/
theorem c6_counterexample :
    (getBookingsFlatFile none
        (Except.ok [[(cs "contact_name", JsVal.vstr (cs "Old"))]])).status = 200 ∧
    (getBookingsFlatFile none
        (Except.ok [[(cs "contact_name", JsVal.vstr (cs "Old"))]])).storeQueried = true ∧
    (getBookingsFlatFile none
        (Except.ok [[(cs "contact_name", JsVal.vstr (cs "Old"))]])).bookings =
      some [[(cs "contact_name", JsVal.vstr (cs "Old"))]] :=
  ⟨rfl, rfl, rfl⟩

/-- Claim C6, amended: the bearer-protected listing handlers (`server.js`)
respond 401 without reading the store unless the authorization header
exactly equals the configured bearer credential, and read the store only
after that check passes; the flat-file listing handler of `part_001`,
however, performs no credential check at all — it reads the store on every
request, never responds 401, and answers 200 with the stored records (500
only on a read failure) regardless of the authorization header. -/
theorem c6_listing_auth (authHeader : Option (List Char)) (pwd : List Char)
    (findResult : Except Unit (List StoredDoc))
    (readResult : Except Unit (List Submission)) :
    (((getBookings authHeader pwd findResult).storeQueried = true ↔
      authHeader = some (cs "Bearer " ++ pwd)) ∧
    (authHeader ≠ some (cs "Bearer " ++ pwd) →
      (getBookings authHeader pwd findResult).status = 401 ∧
      (getBookings authHeader pwd findResult).storeQueried = false)) ∧
    ((getBookingsFlatFile authHeader readResult).storeQueried = true ∧
      (getBookingsFlatFile authHeader readResult).status ≠ 401 ∧
      (∀ l, readResult = Except.ok l →
        (getBookingsFlatFile authHeader readResult).status = 200 ∧
        (getBookingsFlatFile authHeader readResult).bookings = some l)) := by
  constructor
  · cases authHeader with
    | none =>
      refine ⟨⟨fun hq => ?_, fun hq => ?_⟩, fun _ => ⟨rfl, rfl⟩⟩
      · exact absurd hq (by simp [getBookings])
      · exact absurd hq (by simp)
    | some hdr =>
      unfold getBookings
      dsimp only
      by_cases hcond : hdr = [] ∨ hdr ≠ cs "Bearer " ++ pwd
      · rw [if_pos hcond]
        refine ⟨⟨fun hq => absurd hq (by simp), fun hq => ?_⟩, fun _ => ⟨rfl, rfl⟩⟩
        · obtain rfl : hdr = cs "Bearer " ++ pwd := Option.some.inj hq
          rcases hcond with hnil | hne
          · exact absurd hnil (bearerExpected_ne_nil pwd)
          · exact absurd rfl hne
      · rw [if_neg hcond]
        push_neg at hcond
        obtain ⟨hnil, heq⟩ := hcond
        refine ⟨⟨fun _ => by rw [heq], fun _ => ?_⟩, fun hne => absurd (by rw [heq]) hne⟩
        cases findResult with
        | ok l => rfl
        | error e => rfl
  · cases readResult with
    | ok l =>
      refine ⟨rfl, show (200 : Nat) ≠ 401 by decide, fun l2 hl2 => ?_⟩
      obtain rfl : l = l2 := Except.ok.inj hl2
      exact ⟨rfl, rfl⟩
    | error e =>
      refine ⟨rfl, show (500 : Nat) ≠ 401 by decide, fun l2 hl2 => ?_⟩
      exact absurd hl2 (by simp)

/-- Witness for the amended C6: a request without any Authorization header
against both listing variants. -/
theorem c6_witness :
    ((((getBookings none (cs "pw") (Except.ok [])).storeQueried = true ↔
      (none : Option (List Char)) = some (cs "Bearer " ++ cs "pw")) ∧
    ((none : Option (List Char)) ≠ some (cs "Bearer " ++ cs "pw") →
      (getBookings none (cs "pw") (Except.ok [])).status = 401 ∧
      (getBookings none (cs "pw") (Except.ok [])).storeQueried = false)) ∧
    ((getBookingsFlatFile none
          (Except.ok [] : Except Unit (List Submission))).storeQueried = true ∧
      (getBookingsFlatFile none
          (Except.ok [] : Except Unit (List Submission))).status ≠ 401 ∧
      (∀ l, (Except.ok [] : Except Unit (List Submission)) = Except.ok l →
        (getBookingsFlatFile none
            (Except.ok [] : Except Unit (List Submission))).status = 200 ∧
        (getBookingsFlatFile none
            (Except.ok [] : Except Unit (List Submission))).bookings = some l))) :=
  c6_listing_auth none (cs "pw") (Except.ok []) (Except.ok [])

/-! ## Submission handler claims -/

/-- Claim C1 as stated is false on this code: with the store write already
succeeded and a notification step that throws, the multipart handler's
catch responds 500, not the success acknowledgment. -/
theorem c1_counterexample :
    (submitBooking [(cs "contact_name", JsVal.vstr (cs "Jane"))] none
        (cs "2024-05-01T10:00:00.000Z")
        { emailUser := cs "studio@example.com", emailTo := cs "bookings@example.com" }
        (fun _ => false) [] true).response.status = 500 ∧
    StoredDoc.mk 0
        (buildRecord [(cs "contact_name", JsVal.vstr (cs "Jane"))] none
          (cs "2024-05-01T10:00:00.000Z")) ∈
      (submitBooking [(cs "contact_name", JsVal.vstr (cs "Jane"))] none
        (cs "2024-05-01T10:00:00.000Z")
        { emailUser := cs "studio@example.com", emailTo := cs "bookings@example.com" }
        (fun _ => false) [] true).store := by
  constructor
  · rfl
  · exact List.mem_singleton.mpr rfl

/-- Claim C1, amended to what the code does: when the insert succeeded and
the notification step then fails (throws, or reports failure), the handler
responds with the generic 500 failure body; the stored record is not rolled
back and remains in the store. -/
theorem c1_notification_failure_yields_500 (body : Submission) (file : Option UploadFile)
    (now : List Char) (env : Env) (transport : Mail → Bool) (store : List StoredDoc)
    (h : notifySucceeded (buildRecord body file now) file env transport = false) :
    (submitBooking body file now env transport store true).response = fail500 ∧
    StoredDoc.mk store.length (buildRecord body file now) ∈
      (submitBooking body file now env transport store true).store := by
  unfold notifySucceeded at h
  unfold submitBooking
  rw [if_neg (by simp : ¬ (true = false))]
  dsimp only
  cases hn : sendBookingNotification (buildRecord body file now) file env transport with
  | none =>
    exact ⟨rfl, List.mem_append_right _ (List.mem_singleton.mpr rfl)⟩
  | some p =>
    rw [hn] at h
    obtain ⟨sends, ok⟩ := p
    cases ok with
    | true => exact absurd h (by simp)
    | false =>
      exact ⟨rfl, List.mem_append_right _ (List.mem_singleton.mpr rfl)⟩

/-- Witness for the amended C1 at a concrete failing transport. -/
theorem c1_witness :
    notifySucceeded
        (buildRecord [(cs "contact_name", JsVal.vstr (cs "Jane"))] none
          (cs "2024-05-01T10:00:00.000Z")) none
        { emailUser := cs "studio@example.com", emailTo := cs "bookings@example.com" }
        (fun _ => false) = false ∧
    ((submitBooking [(cs "contact_name", JsVal.vstr (cs "Jane"))] none
        (cs "2024-05-01T10:00:00.000Z")
        { emailUser := cs "studio@example.com", emailTo := cs "bookings@example.com" }
        (fun _ => false) [] true).response = fail500 ∧
      StoredDoc.mk (List.length ([] : List StoredDoc))
          (buildRecord [(cs "contact_name", JsVal.vstr (cs "Jane"))] none
            (cs "2024-05-01T10:00:00.000Z")) ∈
        (submitBooking [(cs "contact_name", JsVal.vstr (cs "Jane"))] none
          (cs "2024-05-01T10:00:00.000Z")
          { emailUser := cs "studio@example.com", emailTo := cs "bookings@example.com" }
          (fun _ => false) [] true).store) :=
  ⟨rfl, c1_notification_failure_yields_500 _ none _ _ (fun _ => false) [] rfl⟩

/-- Claim C7 as stated is false on the flat-file backend: a failure reading
the existing store state is caught and only logged, the handler proceeds
with an empty list, overwrites the file with just the new record — losing a
previously stored one — and still responds with the success message. -/
theorem c7_counterexample :
    (submitBookingFlatFile [(cs "contact_name", JsVal.vstr (cs "Jane"))]
        (cs "2024-05-01T10:00:00.000Z")
        [[(cs "contact_name", JsVal.vstr (cs "Old"))]] false true).response.status = 200 ∧
    (submitBookingFlatFile [(cs "contact_name", JsVal.vstr (cs "Jane"))]
        (cs "2024-05-01T10:00:00.000Z")
        [[(cs "contact_name", JsVal.vstr (cs "Old"))]] false true).fileContent =
      some [spreadSet [(cs "contact_name", JsVal.vstr (cs "Jane"))] (cs "date")
              (JsVal.vstr (cs "2024-05-01T10:00:00.000Z"))] ∧
    [(cs "contact_name", JsVal.vstr (cs "Old"))] ∉
      [spreadSet [(cs "contact_name", JsVal.vstr (cs "Jane"))] (cs "date")
         (JsVal.vstr (cs "2024-05-01T10:00:00.000Z"))] := by
  refine ⟨rfl, rfl, ?_⟩
  decide

/-- Claim C7, amended to what the flat-file code does: a failing write
surfaces as an error (no success response), but a failing read of the
existing store state is swallowed — the state is treated as empty, the file
is overwritten with only the new record, previously stored records are
discarded, and the success response is still produced. -/
theorem c7_flat_file_put (body : Submission) (now : List Char) (prev : List Submission)
    (readOk writeOk : Bool) :
    (writeOk = false →
      (submitBookingFlatFile body now prev readOk writeOk).response.status = 500) ∧
    (writeOk = true → readOk = true →
      (submitBookingFlatFile body now prev readOk writeOk).response.status = 200 ∧
      (submitBookingFlatFile body now prev readOk writeOk).fileContent =
        some (prev ++ [spreadSet body (cs "date") (JsVal.vstr now)])) ∧
    (writeOk = true → readOk = false →
      (submitBookingFlatFile body now prev readOk writeOk).response.status = 200 ∧
      (submitBookingFlatFile body now prev readOk writeOk).fileContent =
        some [spreadSet body (cs "date") (JsVal.vstr now)]) := by
  cases writeOk <;> cases readOk <;>
    simp [submitBookingFlatFile]

/-- Witness for the amended C7. -/
theorem c7_witness :
    ((true : Bool) = false →
      (submitBookingFlatFile [] (cs "t") [[]] false true).response.status = 500) ∧
    ((true : Bool) = true → (false : Bool) = true →
      (submitBookingFlatFile [] (cs "t") [[]] false true).response.status = 200 ∧
      (submitBookingFlatFile [] (cs "t") [[]] false true).fileContent =
        some ([[]] ++ [spreadSet [] (cs "date") (JsVal.vstr (cs "t"))])) ∧
    ((true : Bool) = true → (false : Bool) = false →
      (submitBookingFlatFile [] (cs "t") [[]] false true).response.status = 200 ∧
      (submitBookingFlatFile [] (cs "t") [[]] false true).fileContent =
        some [spreadSet [] (cs "date") (JsVal.vstr (cs "t"))]) :=
  c7_flat_file_put [] (cs "t") [[]] false true

/-- Claim C8: an uploaded file that is larger than 10 MB or not a PDF is
rejected with a 400 before the handler runs — the store is untouched and no
send is attempted. -/
theorem c8_upload_reject (body : Submission) (f : UploadFile) (now : List Char)
    (env : Env) (transport : Mail → Bool) (store : List StoredDoc) (insertOk : Bool)
    (h : 10 * 1024 * 1024 < f.size ∨ f.mimetype ≠ cs "application/pdf") :
    (submitWithUpload body (some f) now env transport store insertOk).response.status = 400 ∧
    (submitWithUpload body (some f) now env transport store insertOk).store = store ∧
    (submitWithUpload body (some f) now env transport store insertOk).mails = [] := by
  unfold submitWithUpload
  dsimp only
  by_cases hf : fileFilterAccepts f = false
  · rw [if_pos hf]
    exact ⟨rfl, rfl, rfl⟩
  · rw [if_neg hf]
    have hmime : f.mimetype = cs "application/pdf" := by
      cases hb : fileFilterAccepts f
      · exact absurd hb hf
      · exact of_decide_eq_true hb
    rcases h with hs | hm
    · rw [if_pos hs]
      exact ⟨rfl, rfl, rfl⟩
    · exact absurd hmime hm

/-- Witness for C8: a 15 MB PDF. -/
theorem c8_witness :
    (10 * 1024 * 1024 < 15728640 ∨
      cs "application/pdf" ≠ cs "application/pdf") ∧
    ((submitWithUpload []
        (some { originalname := cs "list.pdf", mimetype := cs "application/pdf",
                size := 15728640, buffer := [] })
        (cs "t") { emailUser := cs "u", emailTo := cs "v" } (fun _ => true) [] true).response.status = 400 ∧
      (submitWithUpload []
        (some { originalname := cs "list.pdf", mimetype := cs "application/pdf",
                size := 15728640, buffer := [] })
        (cs "t") { emailUser := cs "u", emailTo := cs "v" } (fun _ => true) [] true).store = [] ∧
      (submitWithUpload []
        (some { originalname := cs "list.pdf", mimetype := cs "application/pdf",
                size := 15728640, buffer := [] })
        (cs "t") { emailUser := cs "u", emailTo := cs "v" } (fun _ => true) [] true).mails = []) :=
  ⟨Or.inl (by decide),
    c8_upload_reject []
      { originalname := cs "list.pdf", mimetype := cs "application/pdf",
        size := 15728640, buffer := [] }
      (cs "t") { emailUser := cs "u", emailTo := cs "v" } (fun _ => true) [] true
      (Or.inl (by decide))⟩

/-- Claim C9: a successfully acknowledged submission is in the store that an
authorized listing returns verbatim; the stored record carries the
store-assigned identifier (fresh relative to the previous contents) and the
server timestamp under `date` — regardless of any caller-supplied `date`
field, which the record build overrides. -/
theorem c9_round_trip (body : Submission) (file : Option UploadFile) (now : List Char)
    (env : Env) (transport : Mail → Bool) (store : List StoredDoc) (pwd : List Char)
    (h200 : (submitBooking body file now env transport store true).response.status = 200) :
    ∃ rec : StoredDoc,
      rec ∈ (submitBooking body file now env transport store true).store ∧
      (getBookings (some (cs "Bearer " ++ pwd)) pwd
          (Except.ok (submitBooking body file now env transport store true).store)).bookings
        = some (submitBooking body file now env transport store true).store ∧
      rec.data = buildRecord body file now ∧
      objGet rec.data (cs "date") = some (JsVal.vstr now) ∧
      rec.id = store.length ∧
      (∀ d0 ∈ store, d0.id < store.length → d0.id ≠ rec.id) ∧
      (submitBooking body file now env transport store true).response.bookingId
        = some rec.id := by
  have hlist :
      (getBookings (some (cs "Bearer " ++ pwd)) pwd
          (Except.ok (submitBooking body file now env transport store true).store)).bookings
        = some (submitBooking body file now env transport store true).store := by
    unfold getBookings
    dsimp only
    rw [if_neg]
    push_neg
    exact ⟨bearerExpected_ne_nil pwd, rfl⟩
  have hdate : objGet (buildRecord body file now) (cs "date") = some (JsVal.vstr now) := by
    unfold buildRecord
    cases file with
    | none => exact objGet_spreadSet_self body (cs "date") (JsVal.vstr now)
    | some f =>
      rw [objGet_spreadSet_other _ _ (by decide : cs "date" ≠ cs "file")]
      exact objGet_spreadSet_self body (cs "date") (JsVal.vstr now)
  unfold submitBooking at h200
  rw [if_neg (by simp : ¬ (true = false))] at h200
  dsimp only at h200
  cases hn : sendBookingNotification (buildRecord body file now) file env transport with
  | none =>
    rw [hn] at h200
    simp [fail500] at h200
  | some p =>
    obtain ⟨sends, ok⟩ := p
    rw [hn] at h200
    cases ok with
    | false => simp [fail500] at h200
    | true =>
      refine ⟨StoredDoc.mk store.length (buildRecord body file now), ?_, hlist, rfl, hdate,
        rfl, fun d0 _ hlt => Nat.ne_of_lt hlt, ?_⟩
      · unfold submitBooking
        rw [if_neg (by simp : ¬ (true = false))]
        dsimp only
        rw [hn]
        exact List.mem_append_right _ (List.mem_singleton.mpr rfl)
      · unfold submitBooking
        rw [if_neg (by simp : ¬ (true = false))]
        dsimp only
        rw [hn]
        rfl

/-- Witness for C9 on a concrete accepted submission. -/
theorem c9_witness :
    ∃ rec : StoredDoc,
      rec ∈ (submitBooking [(cs "date", JsVal.vstr (cs "forged"))] none (cs "2024-05-01")
          { emailUser := cs "u", emailTo := cs "v" } (fun _ => true) [] true).store ∧
      (getBookings (some (cs "Bearer " ++ cs "pw")) (cs "pw")
          (Except.ok (submitBooking [(cs "date", JsVal.vstr (cs "forged"))] none
            (cs "2024-05-01") { emailUser := cs "u", emailTo := cs "v" }
            (fun _ => true) [] true).store)).bookings
        = some (submitBooking [(cs "date", JsVal.vstr (cs "forged"))] none (cs "2024-05-01")
            { emailUser := cs "u", emailTo := cs "v" } (fun _ => true) [] true).store ∧
      rec.data = buildRecord [(cs "date", JsVal.vstr (cs "forged"))] none (cs "2024-05-01") ∧
      objGet rec.data (cs "date") = some (JsVal.vstr (cs "2024-05-01")) ∧
      rec.id = List.length ([] : List StoredDoc) ∧
      (∀ d0 ∈ ([] : List StoredDoc),
        d0.id < List.length ([] : List StoredDoc) → d0.id ≠ rec.id) ∧
      (submitBooking [(cs "date", JsVal.vstr (cs "forged"))] none (cs "2024-05-01")
          { emailUser := cs "u", emailTo := cs "v" } (fun _ => true) [] true).response.bookingId
        = some rec.id :=
  c9_round_trip [(cs "date", JsVal.vstr (cs "forged"))] none (cs "2024-05-01")
    { emailUser := cs "u", emailTo := cs "v" } (fun _ => true) [] (cs "pw") rfl

/-! ## Lemmas: escaping -/

theorem replaceChar_append (c : Char) (rep : List Char) (a b : List Char) :
    replaceChar c rep (a ++ b) = replaceChar c rep a ++ replaceChar c rep b := by
  induction a with
  | nil => rfl
  | cons x rest ih =>
    rw [List.cons_append, replaceChar, replaceChar, ih, List.append_assoc]

theorem escapeHtml_append (a b : List Char) :
    escapeHtml (a ++ b) = escapeHtml a ++ escapeHtml b := by
  simp only [escapeHtml, replaceChar_append]

theorem escapeMap_append (a b : List Char) :
    escapeMap (a ++ b) = escapeMap a ++ escapeMap b := by
  induction a with
  | nil => rfl
  | cons x rest ih =>
    rw [List.cons_append, escapeMap, escapeMap, ih, List.append_assoc]

theorem escapeHtml_singleton (x : Char) : escapeHtml [x] = htmlEntity x := by
  by_cases h1 : x = '&'
  · subst h1; decide
  · by_cases h2 : x = '<'
    · subst h2; decide
    · by_cases h3 : x = '>'
      · subst h3; decide
      · by_cases h4 : x = '"'
        · subst h4; decide
        · by_cases h5 : x = '\''
          · subst h5; decide
          · simp [escapeHtml, replaceChar, htmlEntity, h1, h2, h3, h4, h5]

theorem escapeHtml_eq_escapeMap (l : List Char) : escapeHtml l = escapeMap l := by
  induction l with
  | nil => rfl
  | cons x rest ih =>
    have : x :: rest = [x] ++ rest := rfl
    rw [this, escapeHtml_append, escapeHtml_singleton, escapeMap_append]
    have hx : escapeMap [x] = htmlEntity x := by
      rw [escapeMap, escapeMap, List.append_nil]
    rw [hx, ih]

theorem no_lt_escapeMap (l : List Char) : '<' ∉ escapeMap l := by
  induction l with
  | nil => simp [escapeMap]
  | cons x rest ih =>
    rw [escapeMap]
    intro hmem
    rcases List.mem_append.mp hmem with h | h
    · unfold htmlEntity at h
      split_ifs at h with h1 h2 h3 h4 h5
      · exact absurd h (by decide)
      · exact absurd h (by decide)
      · exact absurd h (by decide)
      · exact absurd h (by decide)
      · exact absurd h (by decide)
      · rcases List.mem_singleton.mp h with h
        exact h2 h.symm
    · exact ih h

theorem no_lt_escapeHtml (l : List Char) : '<' ∉ escapeHtml l := by
  rw [escapeHtml_eq_escapeMap]
  exact no_lt_escapeMap l

/-! ## Lemmas: the Good invariant -/

theorem suffix_append_split {p x y : List Char} (h : p <:+ x ++ y) :
    (∃ p1, p = p1 ++ y ∧ p1 <:+ x) ∨ p <:+ y := by
  obtain ⟨t, ht⟩ := h
  rcases List.append_eq_append_iff.mp ht with ⟨a, hx, hp⟩ | ⟨c, hc, hy⟩
  · exact Or.inl ⟨a, hp, ⟨t, hx.symm⟩⟩
  · exact Or.inr ⟨c, hy.symm⟩

theorem infix_append_split {p x y : List Char} (h : p <:+: x ++ y) :
    p <:+: x ∨ p <:+: y ∨
      ∃ p1 p2, p = p1 ++ p2 ∧ p1 ≠ [] ∧ p2 ≠ [] ∧ p1 <:+ x ∧ p2 <+: y := by
  obtain ⟨s, t, hst⟩ := h
  have hst' : s ++ (p ++ t) = x ++ y := by
    rw [← List.append_assoc]; exact hst
  rcases List.append_eq_append_iff.mp hst' with ⟨a, hx, hp⟩ | ⟨c, hc, hy⟩
  · rcases List.append_eq_append_iff.mp hp with ⟨b, ha, ht2⟩ | ⟨q, hpq, hy2⟩
    · left
      exact ⟨s, b, by rw [hx, ha, List.append_assoc]⟩
    · by_cases hq : q = []
      · left
        subst hq
        rw [List.append_nil] at hpq
        exact ⟨s, [], by rw [List.append_nil, hx, hpq]⟩
      · by_cases hanil : a = []
        · right; left
          subst hanil
          rw [List.nil_append] at hpq
          subst hpq
          exact ⟨[], t, by rw [List.nil_append, hy2]⟩
        · right; right
          refine ⟨a, q, hpq, hanil, hq, ⟨s, hx.symm⟩, ⟨t, hy2.symm⟩⟩
  · right; left
    exact ⟨c, t, by rw [hy, ← List.append_assoc]⟩

theorem good_nil : Good [] := by decide

theorem good_append {x y : List Char} (hx : Good x) (hy : Good y) : Good (x ++ y) := by
  obtain ⟨hx1, hx2, hx3⟩ := hx
  obtain ⟨hy1, hy2, hy3⟩ := hy
  refine ⟨?_, ?_, ?_⟩
  · intro h
    rcases suffix_append_split h with ⟨p1, hp, hs⟩ | hs
    · cases p1 with
      | nil =>
        rw [List.nil_append] at hp
        exact hy1 (by rw [← hp])
      | cons c p1' =>
        rw [List.cons_append] at hp
        obtain ⟨hc, h2⟩ := List.cons.inj hp
        obtain ⟨hp1, hyy⟩ := (List.append_eq_nil).mp h2.symm
        subst hp1; subst hyy
        rw [← hc] at hs
        exact hx1 hs
    · exact hy1 hs
  · intro h
    rcases suffix_append_split h with ⟨p1, hp, hs⟩ | hs
    · cases p1 with
      | nil =>
        rw [List.nil_append] at hp
        exact hy2 (by rw [← hp])
      | cons c p1' =>
        rw [List.cons_append] at hp
        obtain ⟨hc, h2⟩ := List.cons.inj hp
        cases p1' with
        | nil =>
          rw [List.nil_append] at h2
          rw [← hc] at hs
          exact hx1 hs
        | cons c2 p2' =>
          rw [List.cons_append] at h2
          obtain ⟨hc2, h3⟩ := List.cons.inj h2
          obtain ⟨hp2, hyy⟩ := (List.append_eq_nil).mp h3.symm
          subst hp2; subst hyy
          rw [← hc, ← hc2] at hs
          exact hx2 hs
    · exact hy2 hs
  · intro h
    rcases infix_append_split h with hin | hin | ⟨p1, p2, hp, hne1, hne2, hs1, hs2⟩
    · exact hx3 hin
    · exact hy3 hin
    · cases p1 with
      | nil => exact hne1 rfl
      | cons c1 q1 =>
        rw [List.cons_append] at hp
        obtain ⟨hc1, hq⟩ := List.cons.inj hp
        cases q1 with
        | nil =>
          rw [← hc1] at hs1
          exact hx1 hs1
        | cons c2 q2 =>
          rw [List.cons_append] at hq
          obtain ⟨hc2, hq2⟩ := List.cons.inj hq
          cases q2 with
          | nil =>
            rw [← hc1, ← hc2] at hs1
            exact hx2 hs1
          | cons c3 q3 =>
            rw [List.cons_append] at hq2
            obtain ⟨hc3, hq3⟩ := List.cons.inj hq2
            obtain ⟨hq3n, hp2n⟩ := (List.append_eq_nil).mp hq3.symm
            exact hne2 hp2n

theorem good_of_no_lt {l : List Char} (h : '<' ∉ l) : Good l := by
  refine ⟨?_, ?_, ?_⟩
  · intro hs
    exact h (hs.subset (by decide))
  · intro hs
    exact h (hs.subset (by decide))
  · intro hs
    exact h (hs.sublist.subset (by decide))

theorem good_escapeHtml (l : List Char) : Good (escapeHtml l) :=
  good_of_no_lt (no_lt_escapeHtml l)

theorem good_flatten {L : List (List Char)} (h : ∀ x ∈ L, Good x) : Good L.flatten := by
  induction L with
  | nil => exact good_nil
  | cons x rest ih =>
    rw [List.flatten_cons]
    exact good_append (h x (List.mem_cons_self x rest))
      (ih fun y hy => h y (List.mem_cons_of_mem x hy))

theorem good_rowHtml (d : Submission) (k : List Char) : Good (rowHtml d k) := by
  unfold rowHtml
  exact good_append (good_append (good_append (good_append
    (by decide) (good_escapeHtml _)) (by decide)) (good_escapeHtml _)) (by decide)

theorem good_rowsForKeys (d : Submission) (ks : List (List Char)) :
    Good (rowsForKeys d ks) := by
  unfold rowsForKeys
  refine good_flatten ?_
  intro x hx
  obtain ⟨k, _, rfl⟩ := List.mem_map.mp hx
  exact good_rowHtml d k

theorem good_sectionTableHtml (t r : List Char) (hr : Good r) :
    Good (sectionTableHtml t r) := by
  unfold sectionTableHtml
  by_cases h : r = []
  · rw [if_pos h]; exact good_nil
  · rw [if_neg h]
    exact good_append (good_append (good_append (good_append
      (by decide) (good_escapeHtml _)) (by decide)) hr) (by decide)

theorem good_introFor (d : Submission) (a : Audience) : Good (introFor d a) := by
  cases a with
  | admin => exact (by decide : Good introAdmin)
  | client =>
    exact good_append (good_append (by decide) (good_escapeHtml _)) (by decide)

theorem good_outroFor (a : Audience) : Good (outroFor a) := by
  cases a with
  | admin => exact good_nil
  | client => decide

theorem good_buildHtmlEmail (d : Submission) (a : Audience) :
    Good (buildHtmlEmail d a) := by
  unfold buildHtmlEmail
  refine good_append (good_append (good_append (good_append (good_append (good_append
    (good_append (good_append (good_append (good_append
      (by decide : Good outerTpl1) (good_introFor d a)) (by decide : Good outerSep))
      (good_sectionTableHtml _ _ (good_rowsForKeys _ _)))
      (good_sectionTableHtml _ _ (good_rowsForKeys _ _)))
      (good_sectionTableHtml _ _ (good_rowsForKeys _ _)))
      (good_sectionTableHtml _ _ (good_rowsForKeys _ _)))
      (good_sectionTableHtml _ _ (good_rowsForKeys _ _)))
      (by decide : Good outerSep)) (good_outroFor a)) (by decide : Good outerTpl3)

/-! ## Lemmas: the escaped value reaches the HTML output -/

theorem append_ne_nil_left {a b : List Char} (h : a ≠ []) : a ++ b ≠ [] :=
  fun hh => h (List.append_eq_nil.mp hh).1

theorem jsTrim_ne_nil_of_mem {c : Char} {l : List Char} (hc : c ∈ l)
    (hws : jsWhitespace c = false) : jsTrim l ≠ [] := by
  intro h
  unfold jsTrim at h
  have h1 : (l.dropWhile jsWhitespace).reverse.dropWhile jsWhitespace = [] := by
    have := congrArg List.reverse h
    simpa using this
  have h2 : ∀ x ∈ (l.dropWhile jsWhitespace).reverse, jsWhitespace x = true :=
    List.dropWhile_eq_nil_iff.mp h1
  have h3 : c ∈ l.dropWhile jsWhitespace := by
    have hsplit := List.takeWhile_append_dropWhile jsWhitespace l
    rcases List.mem_append.mp (by rw [hsplit]; exact hc) with htk | hdr
    · exact absurd (List.mem_takeWhile_imp htk) (by rw [hws]; exact Bool.false_ne_true)
    · exact hdr
  have := h2 c (List.mem_reverse.mpr h3)
  rw [hws] at this
  exact Bool.false_ne_true this

theorem escVal_in_rowHtml (d : Submission) (k : List Char) :
    escapeHtml (renderedVal d k) <:+: rowHtml d k := by
  refine ⟨rowTpl1 ++ escapeHtml (prettyLabel k) ++ rowTpl2, rowTpl3, ?_⟩
  simp [rowHtml, List.append_assoc]

theorem rowHtml_ne_nil (d : Submission) (k : List Char) : rowHtml d k ≠ [] := by
  unfold rowHtml
  exact append_ne_nil_left (append_ne_nil_left (append_ne_nil_left (append_ne_nil_left
    (by decide))))

theorem rowHtml_in_rows {d : Submission} {k : List Char} {ks : List (List Char)}
    (hk : k ∈ ks) : rowHtml d k <:+: rowsForKeys d ks :=
  List.infix_of_mem_flatten (List.mem_map_of_mem _ hk)

theorem rows_ne_nil {d : Submission} {k : List Char} {ks : List (List Char)}
    (hk : k ∈ ks) : rowsForKeys d ks ≠ [] := by
  unfold rowsForKeys
  rw [Ne, List.flatten_eq_nil_iff]
  intro hall
  exact rowHtml_ne_nil d k (hall _ (List.mem_map_of_mem _ hk))

theorem rows_in_section (t r : List Char) (hr : r ≠ []) : r <:+: sectionTableHtml t r := by
  unfold sectionTableHtml
  rw [if_neg hr]
  refine ⟨secTpl1 ++ escapeHtml t ++ secTpl2, secTpl3, ?_⟩
  simp [List.append_assoc]

theorem section_in_html (d : Submission) (a : Audience) (g : FieldGroup) :
    sectionTableHtml (sectionTitle g) (rowsForKeys d (groupList (groupKeys d) g)) <:+:
      buildHtmlEmail d a := by
  cases g with
  | contact =>
    refine ⟨outerTpl1 ++ introFor d a ++ outerSep,
      sectionTableHtml (cs "Project") (rowsForKeys d (groupKeys d).project)
        ++ sectionTableHtml (cs "Equipment") (rowsForKeys d (groupKeys d).equipment)
        ++ sectionTableHtml (cs "Billing") (rowsForKeys d (groupKeys d).billing)
        ++ sectionTableHtml (cs "Meta") (rowsForKeys d (groupKeys d).meta)
        ++ outerSep ++ outroFor a ++ outerTpl3, ?_⟩
    simp [buildHtmlEmail, sectionTitle, groupList, List.append_assoc]
  | project =>
    refine ⟨outerTpl1 ++ introFor d a ++ outerSep
        ++ sectionTableHtml (cs "Contact") (rowsForKeys d (groupKeys d).contact),
      sectionTableHtml (cs "Equipment") (rowsForKeys d (groupKeys d).equipment)
        ++ sectionTableHtml (cs "Billing") (rowsForKeys d (groupKeys d).billing)
        ++ sectionTableHtml (cs "Meta") (rowsForKeys d (groupKeys d).meta)
        ++ outerSep ++ outroFor a ++ outerTpl3, ?_⟩
    simp [buildHtmlEmail, sectionTitle, groupList, List.append_assoc]
  | equipment =>
    refine ⟨outerTpl1 ++ introFor d a ++ outerSep
        ++ sectionTableHtml (cs "Contact") (rowsForKeys d (groupKeys d).contact)
        ++ sectionTableHtml (cs "Project") (rowsForKeys d (groupKeys d).project),
      sectionTableHtml (cs "Billing") (rowsForKeys d (groupKeys d).billing)
        ++ sectionTableHtml (cs "Meta") (rowsForKeys d (groupKeys d).meta)
        ++ outerSep ++ outroFor a ++ outerTpl3, ?_⟩
    simp [buildHtmlEmail, sectionTitle, groupList, List.append_assoc]
  | billing =>
    refine ⟨outerTpl1 ++ introFor d a ++ outerSep
        ++ sectionTableHtml (cs "Contact") (rowsForKeys d (groupKeys d).contact)
        ++ sectionTableHtml (cs "Project") (rowsForKeys d (groupKeys d).project)
        ++ sectionTableHtml (cs "Equipment") (rowsForKeys d (groupKeys d).equipment),
      sectionTableHtml (cs "Meta") (rowsForKeys d (groupKeys d).meta)
        ++ outerSep ++ outroFor a ++ outerTpl3, ?_⟩
    simp [buildHtmlEmail, sectionTitle, groupList, List.append_assoc]
  | meta =>
    refine ⟨outerTpl1 ++ introFor d a ++ outerSep
        ++ sectionTableHtml (cs "Contact") (rowsForKeys d (groupKeys d).contact)
        ++ sectionTableHtml (cs "Project") (rowsForKeys d (groupKeys d).project)
        ++ sectionTableHtml (cs "Equipment") (rowsForKeys d (groupKeys d).equipment)
        ++ sectionTableHtml (cs "Billing") (rowsForKeys d (groupKeys d).billing),
      outerSep ++ outroFor a ++ outerTpl3, ?_⟩
    simp [buildHtmlEmail, sectionTitle, groupList, List.append_assoc]

theorem escVal_in_html (d : Submission) (a : Audience) (k : List Char) (g : FieldGroup)
    (hk : k ∈ groupList (groupKeys d) g) :
    escapeHtml (renderedVal d k) <:+: buildHtmlEmail d a :=
  ((escVal_in_rowHtml d k).trans (rowHtml_in_rows hk)).trans
    ((rows_in_section _ _ (rows_ne_nil hk)).trans (section_in_html d a g))

/-- Claim C4: `escapeHtml` performs exactly the character-wise five-entity
translation (`escapeMap` over `htmlEntity`, the spec's "escape the five
standard HTML special characters" — this is what every label and value is
passed through in `rowsForKeys`), and consequently for any submission field
whose string value contains `<script>` and that is not denylisted, the
rendered HTML document contains the escaped form `&lt;script&gt;` and never
the raw markup `<script>`. -/
theorem c4_html_escaping :
    (∀ l, escapeHtml l = escapeMap l) ∧
    ∀ (d : Submission) (a : Audience) (k v : List Char),
      objGet d k = some (JsVal.vstr v) → k ∉ EXCLUDE_KEYS →
      cs "<script>" <:+: v →
      (cs "&lt;script&gt;" <:+: buildHtmlEmail d a ∧
       ¬ (cs "<script>" <:+: buildHtmlEmail d a)) := by
  refine ⟨escapeHtml_eq_escapeMap, ?_⟩
  intro d a k v hv hexc hsub
  constructor
  · have hlt : '<' ∈ v := hsub.sublist.subset (by decide : '<' ∈ cs "<script>")
    have htrim : jsTrim v ≠ [] := jsTrim_ne_nil_of_mem hlt (by decide)
    have hkept : keyKept d k = true := by
      unfold keyKept
      rw [if_neg hexc, hv]
      simpa [jsString, List.isEmpty_iff] using htrim
    have hmem : k ∈ groupList (groupKeys d) (classifyKey k) :=
      (mem_groupList _).mpr ⟨objGet_mem_keys hv, hkept, rfl⟩
    have hval : renderedVal d k = v := by
      unfold renderedVal
      rw [hv]
      rfl
    have hin : cs "&lt;script&gt;" <:+: escapeHtml (renderedVal d k) := by
      rw [hval]
      obtain ⟨s, t, hst⟩ := hsub
      rw [← hst, escapeHtml_append, escapeHtml_append,
        show escapeHtml (cs "<script>") = cs "&lt;script&gt;" from by decide]
      exact ⟨escapeHtml s, escapeHtml t, rfl⟩
    exact hin.trans (escVal_in_html d a k (classifyKey k) hmem)
  · intro hraw
    exact (good_buildHtmlEmail d a).2.2
      (List.IsInfix.trans (by decide : ['<', 's', 'c'] <:+: cs "<script>") hraw)

/-- Witness for C4: a submission whose free-text field carries a script
tag, rendered for the admin audience. -/
theorem c4_witness :
    objGet [(cs "general_tellusmore", JsVal.vstr (cs "<script>alert(1)</script>"))]
        (cs "general_tellusmore")
      = some (JsVal.vstr (cs "<script>alert(1)</script>")) ∧
    cs "general_tellusmore" ∉ EXCLUDE_KEYS ∧
    cs "<script>" <:+: cs "<script>alert(1)</script>" ∧
    (cs "&lt;script&gt;" <:+:
        buildHtmlEmail [(cs "general_tellusmore",
          JsVal.vstr (cs "<script>alert(1)</script>"))] Audience.admin ∧
      ¬ (cs "<script>" <:+:
        buildHtmlEmail [(cs "general_tellusmore",
          JsVal.vstr (cs "<script>alert(1)</script>"))] Audience.admin)) :=
  ⟨rfl, by decide, by decide,
    c4_html_escaping.2
      [(cs "general_tellusmore", JsVal.vstr (cs "<script>alert(1)</script>"))]
      Audience.admin (cs "general_tellusmore") (cs "<script>alert(1)</script>")
      rfl (by decide) (by decide)⟩

end MariaStudio
